import Mathlib

/-!
Verification of the Strava OAuth2 authorization-code client
(`src/client.ts` and its type declarations).

JavaScript strings are modelled as Lean `String` (sequences of Unicode
code points, accessed through `String.data`); JavaScript arrays as Lean
`List`; fallible operations (functions that `throw`) as `Except String`;
the external HTTP collaborator (`axios.post`) as an explicit
`respond : TokenRequest → TokenResponseData` argument together with a
trace of the requests issued, so that "no network request was made"
is the statement that the trace is empty.
-/

/-- Embedding of JavaScript `String.prototype.split(sep)` for a
single-character separator, at the code-point level: splitting the empty
string yields `[[]]` (JS: `"".split(",") === [""]`). -/
def jsSplit (sep : Char) : List Char → List (List Char)
  | [] => [[]]
  | c :: cs =>
    if c = sep then [] :: jsSplit sep cs
    else
      match jsSplit sep cs with
      | [] => [[c]]
      | r :: rs => (c :: r) :: rs

/-- Embedding of JavaScript `Array.prototype.join(sep)` for a
single-character separator (also the serialization used when an array is
interpolated into a template literal, where JS calls `join(",")`). -/
def jsJoin (sep : Char) : List (List Char) → List Char
  | [] => []
  | [x] => x
  | x :: y :: xs => x ++ sep :: jsJoin sep (y :: xs)

/-- `Client.scopesToString`: `scopes.join(",")` (src/client.ts). -/
def scopesToString (scopes : List String) : String :=
  ⟨jsJoin ',' (scopes.map String.data)⟩

/-- `Client.stringToScopes`: `scope_string.split(",")` (src/client.ts).
The `as Scope[]` cast in the source is a compile-time-only assertion, so
at runtime the result is just the list of comma-separated pieces. -/
def stringToScopes (scope_string : String) : List String :=
  (jsSplit ',' scope_string.data).map String.mk

/-- Modelled from the spec: the `Scope` type (its declaration file
`types/scope.ts` is not under src/) is "an enumerated string identifier
(e.g. `read`, `activity:read_all`)"; these are Strava's scope
identifiers. -/
def stravaScopes : List String :=
  ["read", "read_all", "profile:read_all", "profile:write",
   "activity:read", "activity:read_all", "activity:write"]

theorem jsSplit_ne_nil (sep : Char) (l : List Char) : jsSplit sep l ≠ [] := by
  induction l with
  | nil => simp [jsSplit]
  | cons c cs ih =>
    simp only [jsSplit]
    split
    · simp
    · split
      · simp
      · simp

theorem jsSplit_cons_of_no_sep (sep : Char) (x rest : List Char)
    (hx : sep ∉ x) :
    jsSplit sep (x ++ rest) =
      (x ++ (jsSplit sep rest).headI) :: (jsSplit sep rest).tail := by
  induction x with
  | nil =>
    simp only [List.nil_append]
    rcases h : jsSplit sep rest with _ | ⟨r, rs⟩
    · exact absurd h (jsSplit_ne_nil sep rest)
    · simp
  | cons c cs ih =>
    have hc : c ≠ sep := fun h => hx (h ▸ List.mem_cons_self c cs)
    have hcs : sep ∉ cs := fun h => hx (List.mem_cons_of_mem c h)
    rw [List.cons_append]
    simp only [jsSplit, if_neg hc]
    rw [ih hcs]
    simp

theorem jsSplit_jsJoin (sep : Char) (L : List (List Char))
    (hne : L ≠ []) (hsep : ∀ x ∈ L, sep ∉ x) :
    jsSplit sep (jsJoin sep L) = L := by
  induction L with
  | nil => exact absurd rfl hne
  | cons x xs ih =>
    cases xs with
    | nil =>
      have hx : sep ∉ x := hsep x (List.mem_cons_self x [])
      have := jsSplit_cons_of_no_sep sep x [] hx
      simpa [jsJoin, jsSplit] using this
    | cons y ys =>
      have hx : sep ∉ x := hsep x (List.mem_cons_self x _)
      have hrest : ∀ z ∈ y :: ys, sep ∉ z := fun z hz =>
        hsep z (List.mem_cons_of_mem x hz)
      have ihr := ih (by simp) hrest
      have key := jsSplit_cons_of_no_sep sep x (sep :: jsJoin sep (y :: ys)) hx
      have hsplit : jsSplit sep (sep :: jsJoin sep (y :: ys)) =
          [] :: jsSplit sep (jsJoin sep (y :: ys)) := by
        simp [jsSplit]
      rw [jsJoin, key, hsplit, ihr]
      simp

theorem stravaScopes_no_comma : ∀ s ∈ stravaScopes, ',' ∉ s.data := by
  decide

/-- Round trip at the level of the two client methods, for any scope
list whose elements do not contain the CSV separator. -/
theorem stringToScopes_scopesToString (S : List String)
    (hne : S ≠ []) (hsep : ∀ s ∈ S, ',' ∉ s.data) :
    stringToScopes (scopesToString S) = S := by
  unfold stringToScopes scopesToString
  have hmapne : S.map String.data ≠ [] := by
    simpa using hne
  have hmapsep : ∀ x ∈ S.map String.data, ',' ∉ x := by
    intro x hx
    rcases List.mem_map.mp hx with ⟨s, hs, rfl⟩
    exact hsep s hs
  rw [jsSplit_jsJoin ',' (S.map String.data) hmapne hmapsep]
  rw [List.map_map]
  have : (String.mk ∘ String.data) = id := by
    funext s
    rfl
  rw [this, List.map_id]

/-- C3: For every non-empty ordered sequence of scope identifiers S,
`stringToScopes (scopesToString S) = S`: the comma join followed by the
comma split is the identity on non-empty sequences of scope
identifiers. -/
theorem C3_roundTrip (S : List String)
    (hne : S ≠ []) (hscopes : ∀ s ∈ S, s ∈ stravaScopes) :
    stringToScopes (scopesToString S) = S :=
  stringToScopes_scopesToString S hne
    (fun s hs => stravaScopes_no_comma s (hscopes s hs))

/-- C3 witness: the round trip at the concrete scope sequence
`["read", "activity:read_all"]`. -/
theorem C3_roundTrip_witness :
    stringToScopes (scopesToString ["read", "activity:read_all"]) =
      ["read", "activity:read_all"] :=
  C3_roundTrip ["read", "activity:read_all"] (by decide) (by decide)

/-- C4: `scopesToString []` is the empty string, `stringToScopes ""` is
the one-element sequence containing the empty string (the empty-string
element is preserved, not filtered out), so the two operations are not
inverse at the empty input: the round trip of `[]` is `[""]`, not `[]`. -/
theorem C4_emptyAsymmetry :
    scopesToString [] = "" ∧ stringToScopes "" = [""] ∧
      stringToScopes (scopesToString []) ≠ [] := by
  refine ⟨rfl, rfl, ?_⟩
  decide

/-- A JavaScript `string | number` value (the type of `clientId`). -/
inductive StrNum where
  | str (s : String)
  | num (n : Int)
deriving DecidableEq

/-- JavaScript truthiness of a `string | number` value: the empty string
and the number 0 are falsy, everything else is truthy. -/
def StrNum.truthy : StrNum → Bool
  | .str s => s ≠ ""
  | .num n => n ≠ 0

/-- JavaScript `.toString()` on a `string | number` value. -/
def StrNum.toStr : StrNum → String
  | .str s => s
  | .num n => toString n

/-- `ClientConstructorConfig` (types/config.ts, not under src/; shape
from the spec's configuration surface): `clientId` and `clientSecret`
may be missing (`none`) or present with a possibly-falsy value; the two
endpoint URIs are optional, with provider defaults. -/
structure ClientConstructorConfig where
  clientId : Option StrNum
  clientSecret : Option String
  redirectUri : String
  scopes : List String
  authorizationUri : Option String := none
  tokenUri : Option String := none

/-- `ClientConfig` (types/config.ts, not under src/): the merged
configuration held by a constructed client, with all fields present. -/
structure ClientConfig where
  clientId : StrNum
  clientSecret : String
  redirectUri : String
  scopes : List String
  authorizationUri : String
  tokenUri : String

/-- Modelled from the spec: `defaultConfig` (./config, not under src/)
supplies "provider-specific defaults for the two URIs when unspecified"
and nothing else; in particular it has no clientId or clientSecret. -/
def defaultAuthorizationUri : String := "https://www.strava.com/oauth/authorize"

/-- Modelled from the spec: the default token-endpoint URI. -/
def defaultTokenUri : String := "https://www.strava.com/oauth/token"


/-- JavaScript truthiness of a possibly-missing `string | number`
config field: missing (`undefined`) is falsy. -/
def optTruthy (o : Option StrNum) : Bool :=
  (o.map StrNum.truthy).getD false

/-- JavaScript truthiness of a possibly-missing string config field:
missing (`undefined`) and the empty string are falsy. -/
def optTruthyStr (o : Option String) : Bool :=
  (o.map (fun s => s != "")).getD false

/-- `Client.validateConfig` (src/client.ts): throws
"client_id must be specified" when `config.clientId` is missing or
falsy, then "client_secret must be specified" when `config.clientSecret`
is missing or falsy, and otherwise returns `true`. -/
def validateConfig (config : ClientConstructorConfig) : Except String Bool :=
  if !(optTruthy config.clientId) then
    .error "client_id must be specified"
  else if !(optTruthyStr config.clientSecret) then
    .error "client_secret must be specified"
  else
    .ok true

/-- The client: holds only its merged configuration. -/
structure Client where
  config : ClientConfig

/-- The `Client` constructor (src/client.ts): runs `validateConfig` on
the caller-supplied config first, then merges the supplied configuration
over the defaults (`{ ...defaultConfig, ...config }`: caller values
win, the defaults only fill the two endpoint URIs). The final match is
exhaustive because validation guarantees both credentials are
present. -/
def mkClient (config : ClientConstructorConfig) : Except String Client :=
  match validateConfig config with
  | .error e => .error e
  | .ok _ =>
    match config.clientId, config.clientSecret with
    | some id, some secret =>
      .ok ⟨{ clientId := id
             clientSecret := secret
             redirectUri := config.redirectUri
             scopes := config.scopes
             authorizationUri := config.authorizationUri.getD defaultAuthorizationUri
             tokenUri := config.tokenUri.getD defaultTokenUri }⟩
    | _, _ => .error "unreachable: validateConfig passed without credentials"

/-- C5: `validateConfig` fails iff `clientId` is missing/falsy or
`clientSecret` is missing/falsy, and returns `true` otherwise; the
`clientId` check comes first (when `clientId` is missing/falsy the
error is the client_id error, whatever the other fields hold — no other
field is consulted); and the constructor propagates the validation
failure, so no client is constructed from such a config. -/
theorem C5_validateConfig (config : ClientConstructorConfig) :
    ((∃ e, validateConfig config = .error e) ↔
      ¬ (optTruthy config.clientId = true ∧
         optTruthyStr config.clientSecret = true)) ∧
    ((optTruthy config.clientId = true ∧
      optTruthyStr config.clientSecret = true) →
        validateConfig config = .ok true) ∧
    (optTruthy config.clientId = false →
        validateConfig config = .error "client_id must be specified") ∧
    (∀ e, validateConfig config = .error e → mkClient config = .error e) := by
  unfold mkClient validateConfig
  cases h1 : optTruthy config.clientId <;>
    cases h2 : optTruthyStr config.clientSecret <;>
      simp_all

/-- C5 witness: a config with a missing clientId fails validation with
the client_id error and the constructor fails with the same error. -/
theorem C5_validateConfig_witness :
    validateConfig ⟨none, some "secret", "http://app/cb", ["read"], none, none⟩ =
        .error "client_id must be specified" ∧
      mkClient ⟨none, some "secret", "http://app/cb", ["read"], none, none⟩ =
        .error "client_id must be specified" := by
  have h := C5_validateConfig ⟨none, some "secret", "http://app/cb", ["read"], none, none⟩
  have hv := h.2.2.1 rfl
  exact ⟨hv, h.2.2.2 _ hv⟩

/-- C10: every successfully constructed client holds exactly the truthy
credentials the caller supplied (validation runs on the caller-supplied
config before the merge, and the defaults supply no credentials:
validating a config that carries only default-fillable fields fails);
the configuration is never written after construction — in this
embedding every method is a pure function of the `Client` value, so
construction alone determines the held credentials. -/
theorem C10_constructedClientInvariant (config : ClientConstructorConfig)
    (cl : Client) (h : mkClient config = .ok cl) :
    (∃ id, config.clientId = some id ∧ id.truthy = true ∧
      cl.config.clientId = id) ∧
    (∃ secret, config.clientSecret = some secret ∧ secret ≠ "" ∧
      cl.config.clientSecret = secret) ∧
    (∀ uris : Option String × Option String,
      ∃ e, validateConfig ⟨none, none, config.redirectUri, config.scopes,
        uris.1, uris.2⟩ = .error e) := by
  refine ⟨?_, ?_, fun uris => ⟨"client_id must be specified", rfl⟩⟩ <;>
  · unfold mkClient validateConfig at h
    rcases hid : config.clientId with _ | id <;> rw [hid] at h
    · simp [optTruthy] at h
    rcases hsec : config.clientSecret with _ | secret <;> rw [hsec] at h
    · cases ht : id.truthy <;> simp [optTruthy, optTruthyStr, ht] at h
    cases ht : id.truthy
    · simp [optTruthy, ht] at h
    by_cases hs : secret = ""
    · simp [optTruthy, optTruthyStr, ht, hs] at h
    · simp [optTruthy, optTruthyStr, ht, hs] at h
      first
        | exact ⟨id, rfl, ht, by rw [← h]⟩
        | exact ⟨secret, rfl, hs, by rw [← h]⟩

/-- C10 witness: a concrete successful construction; the constructed
client holds the supplied clientId 42 and clientSecret "s3cr3t". -/
theorem C10_constructedClientInvariant_witness :
    mkClient { clientId := some (.num 42)
               clientSecret := some "s3cr3t"
               redirectUri := "http://app/cb"
               scopes := ["read"] } =
      .ok ⟨{ clientId := .num 42
             clientSecret := "s3cr3t"
             redirectUri := "http://app/cb"
             scopes := ["read"]
             authorizationUri := defaultAuthorizationUri
             tokenUri := defaultTokenUri }⟩ ∧
    (⟨{ clientId := .num 42
        clientSecret := "s3cr3t"
        redirectUri := "http://app/cb"
        scopes := ["read"]
        authorizationUri := defaultAuthorizationUri
        tokenUri := defaultTokenUri }⟩ : Client).config.clientId = .num 42 ∧
    (⟨{ clientId := .num 42
        clientSecret := "s3cr3t"
        redirectUri := "http://app/cb"
        scopes := ["read"]
        authorizationUri := defaultAuthorizationUri
        tokenUri := defaultTokenUri }⟩ : Client).config.clientSecret = "s3cr3t" := by
  have h := C10_constructedClientInvariant
    { clientId := some (.num 42)
      clientSecret := some "s3cr3t"
      redirectUri := "http://app/cb"
      scopes := ["read"] }
    ⟨{ clientId := .num 42
       clientSecret := "s3cr3t"
       redirectUri := "http://app/cb"
       scopes := ["read"]
       authorizationUri := defaultAuthorizationUri
       tokenUri := defaultTokenUri }⟩ rfl
  rcases h with ⟨⟨id, hid, _, hcl⟩, ⟨secret, hsec, _, hclS⟩, _⟩
  have hid2 : id = StrNum.num 42 := by
    cases Option.some.inj hid.symm
    rfl
  have hsec2 : secret = "s3cr3t" := by
    cases Option.some.inj hsec.symm
    rfl
  exact ⟨rfl, by rw [hcl, hid2], by rw [hclS, hsec2]⟩

/-- `ParamObject` (src/types/token.ts): the callback parameters. -/
structure ParamObject where
  code : String
  state : String
  scope : String

/-- The single HTTP request shape produced by the exchange flow:
`axios.post(tokenUri, body)` with the four body fields built in
`getTokenFromObject` (src/client.ts). -/
structure TokenRequest where
  method : String
  url : String
  client_id : StrNum
  client_secret : String
  code : String
  grant_type : String
deriving DecidableEq

/-- The provider's token-exchange response body (`res.data`), with every
field possibly absent, before shape validation. The athlete payload is
opaque and passed through unmodified; it is modelled as an
uninterpreted string. -/
structure TokenResponseData where
  token_type : Option String
  expires_at : Option Int
  expires_in : Option Int
  refresh_token : Option String
  access_token : Option String
  athlete : Option String

/-- The `Token` value object (./token, not under src/; shape from
src/types/token.ts `TokenResponse` and the spec's Token record):
constructed from the six validated response fields. -/
structure Token where
  token_type : String
  expires_at : Int
  expires_in : Int
  refresh_token : String
  access_token : String
  athlete : String
deriving DecidableEq

/-- Modelled from the spec: `assertValidTokenResponse` (./helpers, not
under src/) "fails with an invalid token response error if required
fields (token_type, expires_at, expires_in, refresh_token, access_token,
athlete) are absent or mistyped". -/
def assertValidTokenResponse (r : TokenResponseData) : Except String Token :=
  match r.token_type, r.expires_at, r.expires_in,
      r.refresh_token, r.access_token, r.athlete with
  | some tt, some ea, some ei, some rt, some at_, some ath =>
    .ok ⟨tt, ea, ei, rt, at_, ath⟩
  | _, _, _, _, _, _ => .error "invalid token response"

/-- The scope-mismatch error message of `getTokenFromObject`
(src/client.ts): the template literal
"Requested scopes ${this.config.scopes} not granted. Got: ${scopes}",
where JavaScript interpolates an array as its comma-join. -/
def scopeMismatchMsg (requested granted : List String) : String :=
  "Requested scopes " ++ scopesToString requested ++
    " not granted. Got: " ++ scopesToString granted

/-- `Client.getTokenFromObject` (src/client.ts), with the external HTTP
collaborator passed in as `respond` and the issued requests returned as
a trace: parse `param_object.scope` into granted scopes; throw the
scope-mismatch error when the granted count differs from the configured
count or some granted scope is not among the configured scopes
(`for (let scope of scopes) if (!this.config.scopes.includes(scope)) throw e`);
otherwise POST to `tokenUri` with
`{client_id, client_secret, code, grant_type: "authorization_code"}`,
validate the response shape, and build the `Token` from its fields. -/
def getTokenFromObject (cl : Client) (param_object : ParamObject)
    (respond : TokenRequest → TokenResponseData) :
    Except String Token × List TokenRequest :=
  let scopes := stringToScopes param_object.scope
  let e := scopeMismatchMsg cl.config.scopes scopes
  if scopes.length ≠ cl.config.scopes.length then
    (.error e, [])
  else if scopes.any (fun scope => !(cl.config.scopes.contains scope)) then
    (.error e, [])
  else
    let req : TokenRequest :=
      { method := "POST"
        url := cl.config.tokenUri
        client_id := cl.config.clientId
        client_secret := cl.config.clientSecret
        code := param_object.code
        grant_type := "authorization_code" }
    match assertValidTokenResponse (respond req) with
    | .error er => (.error er, [req])
    | .ok token => (.ok token, [req])

/-- The scope-equivalence condition actually enforced by
`getTokenFromObject`: granted count equals configured count and every
granted scope is among the configured scopes. -/
def scopesEquivalent (configured granted : List String) : Prop :=
  granted.length = configured.length ∧ ∀ g ∈ granted, g ∈ configured

instance (configured granted : List String) :
    Decidable (scopesEquivalent configured granted) := by
  unfold scopesEquivalent
  infer_instance

theorem getTokenFromObject_scope_gate (cl : Client) (p : ParamObject)
    (respond : TokenRequest → TokenResponseData) :
    (¬ scopesEquivalent cl.config.scopes (stringToScopes p.scope) →
      getTokenFromObject cl p respond =
        (.error (scopeMismatchMsg cl.config.scopes (stringToScopes p.scope)),
         [])) ∧
    (scopesEquivalent cl.config.scopes (stringToScopes p.scope) →
      (getTokenFromObject cl p respond).2 =
        [{ method := "POST"
           url := cl.config.tokenUri
           client_id := cl.config.clientId
           client_secret := cl.config.clientSecret
           code := p.code
           grant_type := "authorization_code" }]) := by
  unfold getTokenFromObject scopesEquivalent
  dsimp only
  constructor
  · intro hne
    by_cases hlen : (stringToScopes p.scope).length = cl.config.scopes.length
    · have hmem : ¬ ∀ g ∈ stringToScopes p.scope, g ∈ cl.config.scopes :=
        fun hall => hne ⟨hlen, hall⟩
      have hany : (stringToScopes p.scope).any
          (fun scope => !(cl.config.scopes.contains scope)) = true := by
        rw [List.any_eq_true]
        push_neg at hmem
        rcases hmem with ⟨g, hg, hgn⟩
        exact ⟨g, hg, by simpa using hgn⟩
      rw [if_neg (by simp [hlen]), if_pos hany]
    · rw [if_pos hlen]
  · rintro ⟨hlen, hmem⟩
    have hany : (stringToScopes p.scope).any
        (fun scope => !(cl.config.scopes.contains scope)) = false := by
      rw [List.any_eq_false]
      intro g hg
      simpa using hmem g hg
    rw [if_neg (by simp [hlen]), if_neg (by rw [hany]; simp)]
    split <;> rfl

/-- An example client configuration used to instantiate the claims'
concrete scenarios. -/
def exampleClient (scopes : List String) : Client :=
  ⟨{ clientId := .num 42
     clientSecret := "s"
     redirectUri := "http://app/cb"
     scopes := scopes
     authorizationUri := defaultAuthorizationUri
     tokenUri := defaultTokenUri }⟩

/-- An example HTTP collaborator answering every request with the
well-formed token response from the spec's scenario. -/
def exampleRespond : TokenRequest → TokenResponseData := fun _ =>
  { token_type := some "Bearer"
    expires_at := some 1700000000
    expires_in := some 21600
    refresh_token := some "r1"
    access_token := some "a1"
    athlete := some "athlete-payload" }

/-- C1: `getTokenFromObject` fails with the scope-mismatch error, with
no network request issued, exactly when the granted scopes parsed from
the ParamObject do not satisfy (count equal to the configured scopes ∧
every granted scope among the configured scopes); in particular granted
"read,activity:read_all" passes against configured
["read","activity:read_all"] and against ["activity:read_all","read"]
(a request is issued), while granted "read" against configured
["read","activity:read_all"] fails before any network call. -/
theorem C1_scopeMismatchGate (cl : Client) (p : ParamObject)
    (respond : TokenRequest → TokenResponseData) :
    (getTokenFromObject cl p respond =
        (.error (scopeMismatchMsg cl.config.scopes (stringToScopes p.scope)),
          []) ↔
      ¬ ((stringToScopes p.scope).length = cl.config.scopes.length ∧
          ∀ g ∈ stringToScopes p.scope, g ∈ cl.config.scopes)) ∧
    (getTokenFromObject (exampleClient ["read", "activity:read_all"])
        ⟨"abc", "st", "read,activity:read_all"⟩ respond).2 ≠ [] ∧
    (getTokenFromObject (exampleClient ["activity:read_all", "read"])
        ⟨"abc", "st", "read,activity:read_all"⟩ respond).2 ≠ [] ∧
    getTokenFromObject (exampleClient ["read", "activity:read_all"])
        ⟨"abc", "st", "read"⟩ respond =
      (.error (scopeMismatchMsg ["read", "activity:read_all"] ["read"]), []) := by
  refine ⟨⟨fun hres hequiv => ?_, fun hne => ?_⟩, ?_, ?_, ?_⟩
  · have h2 := (getTokenFromObject_scope_gate cl p respond).2 hequiv
    rw [hres] at h2
    simp at h2
  · exact (getTokenFromObject_scope_gate cl p respond).1 hne
  · rw [(getTokenFromObject_scope_gate _ _ respond).2 (by decide)]
    simp
  · rw [(getTokenFromObject_scope_gate _ _ respond).2 (by decide)]
    simp
  · exact (getTokenFromObject_scope_gate _ _ respond).1 (by decide)

/-- C2: when the scope check passes, the exchange flow issues exactly
one request: a POST to the configured tokenUri whose body holds exactly
client_id (the configured clientId), client_secret (the configured
clientSecret), code (from the ParamObject) and the fixed grant_type
"authorization_code". -/
theorem C2_tokenRequestShape (cl : Client) (p : ParamObject)
    (respond : TokenRequest → TokenResponseData)
    (h : scopesEquivalent cl.config.scopes (stringToScopes p.scope)) :
    (getTokenFromObject cl p respond).2 =
      [{ method := "POST"
         url := cl.config.tokenUri
         client_id := cl.config.clientId
         client_secret := cl.config.clientSecret
         code := p.code
         grant_type := "authorization_code" }] :=
  (getTokenFromObject_scope_gate cl p respond).2 h

/-- C2 witness: the concrete request issued for the spec's example
scenario. -/
theorem C2_tokenRequestShape_witness :
    (getTokenFromObject (exampleClient ["read", "activity:read_all"])
        ⟨"abc123", "st", "read,activity:read_all"⟩ exampleRespond).2 =
      [{ method := "POST"
         url := defaultTokenUri
         client_id := .num 42
         client_secret := "s"
         code := "abc123"
         grant_type := "authorization_code" }] :=
  C2_tokenRequestShape (exampleClient ["read", "activity:read_all"])
    ⟨"abc123", "st", "read,activity:read_all"⟩ exampleRespond (by decide)

/-- C8: whenever the scope check fails, the error carries in its message
both the configured (requested) scopes and the granted scopes, each
rendered as its comma-join, and no token is returned (the result is the
error together with an empty request trace). -/
theorem C8_scopeMismatchMessage (cl : Client) (p : ParamObject)
    (respond : TokenRequest → TokenResponseData)
    (h : ¬ scopesEquivalent cl.config.scopes (stringToScopes p.scope)) :
    getTokenFromObject cl p respond =
      (.error ("Requested scopes " ++ scopesToString cl.config.scopes ++
        " not granted. Got: " ++
        scopesToString (stringToScopes p.scope)), []) ∧
    ∀ t : Token, (getTokenFromObject cl p respond).1 ≠ .ok t := by
  have hgate := (getTokenFromObject_scope_gate cl p respond).1 h
  refine ⟨hgate, fun t ht => ?_⟩
  rw [hgate] at ht
  simp at ht

/-- C8 witness: the concrete mismatch error for granted "read" against
configured ["read","activity:read_all"]. -/
theorem C8_scopeMismatchMessage_witness :
    getTokenFromObject (exampleClient ["read", "activity:read_all"])
        ⟨"abc", "st", "read"⟩ exampleRespond =
      (.error "Requested scopes read,activity:read_all not granted. Got: read",
        []) := by
  have h := C8_scopeMismatchMessage (exampleClient ["read", "activity:read_all"])
    ⟨"abc", "st", "read"⟩ exampleRespond (by decide)
  exact h.1

/-- C9: the scope check is not exact multiset equality: the granted
sequence ["read","read"] (parsed from "read,read") is not a permutation
of the configured ["read","activity:read_all"], yet the count-plus-
membership check passes and the exchange proceeds to the network call
(a request is issued). -/
theorem C9_duplicateScopesPass :
    stringToScopes "read,read" = ["read", "read"] ∧
    ¬ (stringToScopes "read,read").Perm ["read", "activity:read_all"] ∧
    scopesEquivalent ["read", "activity:read_all"]
      (stringToScopes "read,read") ∧
    (getTokenFromObject (exampleClient ["read", "activity:read_all"])
        ⟨"abc", "st", "read,read"⟩ exampleRespond).2 ≠ [] := by
  refine ⟨by decide, by decide, by decide, ?_⟩
  rw [(getTokenFromObject_scope_gate _ _ _).2 (by decide)]
  simp

/-- UTF-8 encoding of a single code point (the byte values as `Nat`). -/
def utf8EncodeChar (c : Char) : List Nat :=
  let n := c.toNat
  if n < 128 then [n]
  else if n < 2048 then [192 + n / 64, 128 + n % 64]
  else if n < 65536 then
    [224 + n / 4096, 128 + (n / 64) % 64, 128 + n % 64]
  else
    [240 + n / 262144, 128 + (n / 4096) % 64, 128 + (n / 64) % 64,
     128 + n % 64]

/-- UTF-8 encoding of a code-point sequence. -/
def utf8Encode (l : List Char) : List Nat := l.flatMap utf8EncodeChar

/-- The Unicode replacement character U+FFFD. -/
def replacementChar : Char := Char.ofNat 65533

/-- Lossy UTF-8 decoding of a byte sequence: valid sequences decode to
their code points, malformed ones to replacement characters (on
malformed multi-byte chunks this approximates the WHATWG decoder by
consuming the examined chunk at once; the development only relies on
the behaviour on valid UTF-8, which is exact). -/
def utf8DecodeLossy : List Nat → List Char
  | [] => []
  | b :: bs =>
    if b < 128 then Char.ofNat b :: utf8DecodeLossy bs
    else if b < 194 then replacementChar :: utf8DecodeLossy bs
    else if 245 ≤ b then replacementChar :: utf8DecodeLossy bs
    else
      match bs with
      | [] => [replacementChar]
      | b2 :: bs2 =>
        if b < 224 then
          if 128 ≤ b2 ∧ b2 < 192 then
            Char.ofNat ((b - 192) * 64 + (b2 - 128)) :: utf8DecodeLossy bs2
          else replacementChar :: utf8DecodeLossy bs2
        else
          match bs2 with
          | [] => [replacementChar]
          | b3 :: bs3 =>
            if b < 240 then
              if 128 ≤ b2 ∧ b2 < 192 ∧ 128 ≤ b3 ∧ b3 < 192 then
                Char.ofNat ((b - 224) * 4096 + (b2 - 128) * 64 +
                  (b3 - 128)) :: utf8DecodeLossy bs3
              else replacementChar :: utf8DecodeLossy bs3
            else
              match bs3 with
              | [] => [replacementChar]
              | b4 :: bs4 =>
                if 128 ≤ b2 ∧ b2 < 192 ∧ 128 ≤ b3 ∧ b3 < 192 ∧
                    128 ≤ b4 ∧ b4 < 192 then
                  Char.ofNat ((b - 240) * 262144 + (b2 - 128) * 4096 +
                    (b3 - 128) * 64 + (b4 - 128)) :: utf8DecodeLossy bs4
                else replacementChar :: utf8DecodeLossy bs4

theorem char_toNat_lt (c : Char) : c.toNat < 1114112 := by
  have := c.valid
  rcases this with h | ⟨h1, h2⟩ <;>
    simp only [Char.toNat] at * <;> omega

set_option maxRecDepth 4000 in
theorem utf8DecodeLossy_encodeChar (c : Char) (rest : List Nat) :
    utf8DecodeLossy (utf8EncodeChar c ++ rest) = c :: utf8DecodeLossy rest := by
  have hval := char_toNat_lt c
  unfold utf8EncodeChar
  dsimp only
  by_cases h1 : c.toNat < 128
  · rw [if_pos h1, List.cons_append, List.nil_append]
    conv_lhs => unfold utf8DecodeLossy
    rw [if_pos h1, Char.ofNat_toNat]
  · rw [if_neg h1]
    by_cases h2 : c.toNat < 2048
    · rw [if_pos h2, List.cons_append, List.cons_append, List.nil_append]
      conv_lhs => unfold utf8DecodeLossy
      rw [if_neg (by omega), if_neg (by omega), if_neg (by omega)]
      dsimp only
      rw [if_pos (by omega), if_pos (by omega)]
      congr 1
      have harith : (192 + c.toNat / 64 - 192) * 64 +
          (128 + c.toNat % 64 - 128) = c.toNat := by omega
      rw [harith, Char.ofNat_toNat]
    · rw [if_neg h2]
      by_cases h3 : c.toNat < 65536
      · rw [if_pos h3, List.cons_append, List.cons_append, List.cons_append,
          List.nil_append]
        conv_lhs => unfold utf8DecodeLossy
        rw [if_neg (by omega), if_neg (by omega), if_neg (by omega)]
        dsimp only
        rw [if_neg (by omega), if_pos (by omega), if_pos (by omega)]
        congr 1
        have harith : (224 + c.toNat / 4096 - 224) * 4096 +
            (128 + c.toNat / 64 % 64 - 128) * 64 +
            (128 + c.toNat % 64 - 128) = c.toNat := by omega
        rw [harith, Char.ofNat_toNat]
      · rw [if_neg h3, List.cons_append, List.cons_append, List.cons_append,
          List.cons_append, List.nil_append]
        conv_lhs => unfold utf8DecodeLossy
        rw [if_neg (by omega), if_neg (by omega), if_neg (by omega)]
        dsimp only
        rw [if_neg (by omega), if_neg (by omega), if_pos (by omega)]
        congr 1
        have harith : (240 + c.toNat / 262144 - 240) * 262144 +
            (128 + c.toNat / 4096 % 64 - 128) * 4096 +
            (128 + c.toNat / 64 % 64 - 128) * 64 +
            (128 + c.toNat % 64 - 128) = c.toNat := by omega
        rw [harith, Char.ofNat_toNat]

theorem utf8DecodeLossy_utf8Encode (l : List Char) :
    utf8DecodeLossy (utf8Encode l) = l := by
  induction l with
  | nil => rfl
  | cons c cs ih =>
    rw [utf8Encode, List.flatMap_cons]
    rw [show cs.flatMap utf8EncodeChar = utf8Encode cs from rfl]
    rw [utf8DecodeLossy_encodeChar, ih]

theorem utf8EncodeChar_lt_256 (c : Char) : ∀ b ∈ utf8EncodeChar c, b < 256 := by
  have hval := char_toNat_lt c
  unfold utf8EncodeChar
  dsimp only
  by_cases h1 : c.toNat < 128
  · rw [if_pos h1]; intro b hb; simp at hb; omega
  · rw [if_neg h1]
    by_cases h2 : c.toNat < 2048
    · rw [if_pos h2]; intro b hb; simp at hb; rcases hb with h | h <;> omega
    · rw [if_neg h2]
      by_cases h3 : c.toNat < 65536
      · rw [if_pos h3]; intro b hb; simp at hb
        rcases hb with h | h | h <;> omega
      · rw [if_neg h3]; intro b hb; simp at hb
        rcases hb with h | h | h | h <;> omega

theorem char_ofNat_toNat_ascii (b : Nat) (h : b < 128) :
    (Char.ofNat b).toNat = b := by
  unfold Char.ofNat Char.toNat
  rw [dif_pos]
  · rfl
  · unfold Nat.isValidChar
    omega

theorem utf8EncodeChar_ascii (b : Nat) (h : b < 128) :
    utf8EncodeChar (Char.ofNat b) = [b] := by
  unfold utf8EncodeChar
  dsimp only
  rw [char_ofNat_toNat_ascii b h, if_pos h]

theorem utf8Encode_map_ofNat (l : List Nat) (h : ∀ b ∈ l, b < 128) :
    utf8Encode (l.map Char.ofNat) = l := by
  induction l with
  | nil => rfl
  | cons b bs ih =>
    rw [List.map_cons, utf8Encode, List.flatMap_cons]
    rw [show (bs.map Char.ofNat).flatMap utf8EncodeChar =
      utf8Encode (bs.map Char.ofNat) from rfl]
    rw [utf8EncodeChar_ascii b (h b (List.mem_cons_self b bs)),
      ih (fun x hx => h x (List.mem_cons_of_mem b hx))]
    rfl

/-- The bytes the application/x-www-form-urlencoded serializer leaves
unescaped: ASCII alphanumerics and `*`, `-`, `.`, `_`. -/
def isSafeByte (b : Nat) : Bool :=
  decide ((48 ≤ b ∧ b ≤ 57) ∨ (65 ≤ b ∧ b ≤ 90) ∨ (97 ≤ b ∧ b ≤ 122) ∨
    b = 42 ∨ b = 45 ∨ b = 46 ∨ b = 95)

/-- The byte value of the uppercase hexadecimal digit for `n < 16`. -/
def hexUpper (n : Nat) : Nat := if n < 10 then 48 + n else 55 + n

/-- The value of a hexadecimal digit byte (upper or lower case). -/
def hexVal (b : Nat) : Option Nat :=
  if 48 ≤ b ∧ b ≤ 57 then some (b - 48)
  else if 65 ≤ b ∧ b ≤ 70 then some (b - 55)
  else if 97 ≤ b ∧ b ≤ 102 then some (b - 87)
  else none

/-- Serialization of one byte by the form-urlencoded serializer: safe
bytes pass through, space becomes `+` (byte 43), every other byte
becomes `%XX` (byte 37 and two uppercase hex digit bytes). -/
def serializeByte (b : Nat) : List Nat :=
  if isSafeByte b then [b]
  else if b = 32 then [43]
  else [37, hexUpper (b / 16), hexUpper (b % 16)]

/-- The `+` to space substitution performed when parsing
form-urlencoded data (byte 43 becomes byte 32). -/
def plusToSpace (l : List Nat) : List Nat :=
  l.map (fun b => if b = 43 then 32 else b)

/-- Percent-decoding of a byte sequence: `%XX` with two hex digits
becomes the byte XX; a malformed escape is passed through (approximating
the WHATWG decoder, which re-examines the bytes after `%`; the
development only relies on the behaviour on well-formed output of
`serializeByte`, which is exact). -/
def percentDecodeBytes : List Nat → List Nat
  | [] => []
  | b :: bs =>
    if b = 37 then
      match bs with
      | [] => [37]
      | [b1] => [37, b1]
      | b1 :: b2 :: bs2 =>
        match hexVal b1, hexVal b2 with
        | some h1, some h2 => (16 * h1 + h2) :: percentDecodeBytes bs2
        | _, _ => 37 :: b1 :: b2 :: percentDecodeBytes bs2
    else b :: percentDecodeBytes bs

/-- The form-urlencoded serialization of a string (the encoding applied
by Node's `URLSearchParams` to each name and value): UTF-8 encode, then
escape each byte. -/
def formEncode (s : String) : String :=
  ⟨((utf8Encode s.data).flatMap serializeByte).map Char.ofNat⟩

/-- The form-urlencoded parse of a string (the decoding applied by
`URLSearchParams` when reading names and values): `+` to space,
percent-decode, lossy UTF-8 decode. -/
def formDecode (s : String) : String :=
  ⟨utf8DecodeLossy (percentDecodeBytes (plusToSpace (utf8Encode s.data)))⟩

theorem hexVal_hexUpper (n : Nat) (h : n < 16) :
    hexVal (hexUpper n) = some n := by
  unfold hexVal hexUpper
  by_cases h10 : n < 10
  · rw [if_pos h10, if_pos (by omega)]
    congr 1
    omega
  · rw [if_neg h10, if_neg (by omega), if_pos (by omega)]
    congr 1
    omega

theorem serializeByte_ascii (b : Nat) (h : b < 256) :
    ∀ x ∈ serializeByte b, x < 128 := by
  unfold serializeByte
  by_cases hs : isSafeByte b = true
  · rw [if_pos hs]
    intro x hx
    simp at hx
    subst hx
    simp [isSafeByte] at hs
    omega
  · rw [if_neg hs]
    by_cases h32 : b = 32
    · rw [if_pos h32]; intro x hx; simp at hx; omega
    · rw [if_neg h32]
      intro x hx
      simp at hx
      rcases hx with hx | hx | hx <;> subst hx
      · omega
      · unfold hexUpper
        split <;> omega
      · unfold hexUpper
        split <;> omega

theorem plusToSpace_serialize (b : Nat) :
    plusToSpace (serializeByte b) =
      if isSafeByte b then [b] else if b = 32 then [32]
      else [37, hexUpper (b / 16), hexUpper (b % 16)] := by
  unfold serializeByte plusToSpace
  by_cases hs : isSafeByte b = true
  · rw [if_pos hs, if_pos hs]
    have h43 : b ≠ 43 := by
      intro hb
      subst hb
      simp [isSafeByte] at hs
    simp [h43]
  · rw [if_neg hs, if_neg hs]
    by_cases h32 : b = 32
    · rw [if_pos h32, if_pos h32]
      simp
    · rw [if_neg h32, if_neg h32]
      have hda : hexUpper (b / 16) ≠ 43 := by unfold hexUpper; split <;> omega
      have hdb : hexUpper (b % 16) ≠ 43 := by unfold hexUpper; split <;> omega
      simp [hda, hdb]

theorem plusToSpace_append (l1 l2 : List Nat) :
    plusToSpace (l1 ++ l2) = plusToSpace l1 ++ plusToSpace l2 := by
  unfold plusToSpace
  rw [List.map_append]

theorem percentDecodeBytes_cons_nonpercent (b : Nat) (bs : List Nat)
    (h : b ≠ 37) :
    percentDecodeBytes (b :: bs) = b :: percentDecodeBytes bs := by
  conv_lhs => unfold percentDecodeBytes
  rw [if_neg h]

theorem percentDecodeBytes_escape (b : Nat) (bs : List Nat) (h : b < 256) :
    percentDecodeBytes (37 :: hexUpper (b / 16) :: hexUpper (b % 16) :: bs) =
      b :: percentDecodeBytes bs := by
  conv_lhs => unfold percentDecodeBytes
  rw [if_pos rfl]
  dsimp only
  rw [hexVal_hexUpper (b / 16) (by omega), hexVal_hexUpper (b % 16) (by omega)]
  dsimp only
  congr 1
  omega

theorem percentDecode_plusToSpace_serialize (bs : List Nat)
    (h : ∀ b ∈ bs, b < 256) :
    percentDecodeBytes (plusToSpace (bs.flatMap serializeByte)) = bs := by
  induction bs with
  | nil => rfl
  | cons b rest ih =>
    have hb : b < 256 := h b (List.mem_cons_self b rest)
    have hrest := ih (fun x hx => h x (List.mem_cons_of_mem b hx))
    rw [List.flatMap_cons, plusToSpace_append, plusToSpace_serialize]
    by_cases hs : isSafeByte b = true
    · rw [if_pos hs]
      have h37 : b ≠ 37 := by
        intro hb37
        subst hb37
        simp [isSafeByte] at hs
      rw [List.cons_append, List.nil_append,
        percentDecodeBytes_cons_nonpercent b _ h37, hrest]
    · rw [if_neg hs]
      by_cases h32 : b = 32
      · rw [if_pos h32, List.cons_append, List.nil_append,
          percentDecodeBytes_cons_nonpercent 32 _ (by omega), hrest, h32]
      · rw [if_neg h32]
        show percentDecodeBytes
          (37 :: hexUpper (b / 16) :: hexUpper (b % 16) ::
            plusToSpace (rest.flatMap serializeByte)) = _
        rw [percentDecodeBytes_escape b _ hb, hrest]

theorem utf8Encode_lt_256 (l : List Char) : ∀ b ∈ utf8Encode l, b < 256 := by
  induction l with
  | nil => intro b hb; simp [utf8Encode] at hb
  | cons c cs ih =>
    intro b hb
    rw [utf8Encode, List.flatMap_cons] at hb
    rcases List.mem_append.mp hb with h | h
    · exact utf8EncodeChar_lt_256 c b h
    · exact ih b h

/-- Decoding a form-encoded string recovers the original string: the
serializer's output is parsed back to the exact input, whatever
characters (including multi-byte ones) the input holds. -/
theorem formDecode_formEncode (s : String) : formDecode (formEncode s) = s := by
  unfold formDecode formEncode
  have hascii : ∀ b ∈ (utf8Encode s.data).flatMap serializeByte, b < 128 := by
    intro b hb
    rcases List.mem_flatMap.mp hb with ⟨x, hx, hbx⟩
    exact serializeByte_ascii x (utf8Encode_lt_256 s.data x hx) b hbx
  rw [show (⟨((utf8Encode s.data).flatMap serializeByte).map Char.ofNat⟩ :
    String).data = ((utf8Encode s.data).flatMap serializeByte).map Char.ofNat
    from rfl]
  rw [utf8Encode_map_ofNat _ hascii]
  rw [percentDecode_plusToSpace_serialize _ (utf8Encode_lt_256 s.data)]
  rw [utf8DecodeLossy_utf8Encode]

/-- The mutable URL object of `getAuthorizationUri` (` new URL(...)`
plus `searchParams.append` calls): a base (assumed to carry no query of
its own, as the configured authorization endpoint does) and the list of
appended search parameters. -/
structure URLState where
  base : String
  params : List (String × String)

/-- `new URL(s)` for a base URL without an existing query. -/
def urlOf (s : String) : URLState := ⟨s, []⟩

/-- `url.searchParams.append(k, v)`. -/
def searchParamsAppend (u : URLState) (k v : String) : URLState :=
  ⟨u.base, u.params ++ [(k, v)]⟩

/-- `url.href`: the base followed, when parameters were appended, by
`?` and the `&`-joined `name=value` pairs, each name and value
form-urlencoded (Node's `URLSearchParams` serializer). -/
def URLState.href (u : URLState) : String :=
  match u.params with
  | [] => u.base
  | _ :: _ =>
    u.base ++ "?" ++
      ⟨jsJoin '&' (u.params.map
        (fun p => (formEncode p.1).data ++ '=' :: (formEncode p.2).data))⟩

/-- `Client.getAuthorizationUri` (src/client.ts): build a URL from the
configured authorizationUri and append, in order, client_id (clientId
as a string), redirect_uri, response_type="code",
approval_prompt="auto" and scope (the comma-joined scopes), returning
the resulting href. -/
def getAuthorizationUri (cl : Client) : String :=
  URLState.href
    (searchParamsAppend
      (searchParamsAppend
        (searchParamsAppend
          (searchParamsAppend
            (searchParamsAppend (urlOf cl.config.authorizationUri)
              "client_id" cl.config.clientId.toStr)
            "redirect_uri" cl.config.redirectUri)
          "response_type" "code")
        "approval_prompt" "auto")
      "scope" (scopesToString cl.config.scopes))

/-- C6: for every constructed client, `getAuthorizationUri` is the
configured authorizationUri extended with exactly the five query
parameters client_id, redirect_uri, response_type=code,
approval_prompt=auto and scope (the comma-joined scopes), in this
order, each value URL-encoded — correctly so, in that decoding the
encoding of any string (whatever special characters it holds) gives
the string back; the operation is a pure function of the configuration
(its result is fully determined by this equation, with no network
effect in its type). -/
theorem C6_getAuthorizationUri (cl : Client) :
    getAuthorizationUri cl =
      cl.config.authorizationUri ++ "?client_id=" ++
        formEncode cl.config.clientId.toStr ++ "&redirect_uri=" ++
        formEncode cl.config.redirectUri ++
        "&response_type=code&approval_prompt=auto&scope=" ++
        formEncode (scopesToString cl.config.scopes) ∧
    (∀ s : String, formDecode (formEncode s) = s) := by
  constructor
  · apply String.ext
    unfold getAuthorizationUri searchParamsAppend urlOf URLState.href
    have hdata : ∀ l : List Char, (String.mk l).data = l := fun l => rfl
    simp only [List.nil_append, List.cons_append, List.map_cons, List.map_nil,
      jsJoin, String.data_append, hdata, List.append_assoc]
    rfl
  · exact formDecode_formEncode

/-- A character allowed inside a URL scheme after the initial letter. -/
def isSchemeChar (c : Char) : Bool :=
  c.isAlphanum || c = '+' || c = '-' || c = '.'

/-- Whether a string starts with a URL scheme (a letter, scheme
characters, then a colon) and is therefore parsed as an absolute URL. -/
def hasScheme (s : String) : Bool :=
  match s.data with
  | [] => false
  | c :: rest =>
    c.isAlpha &&
      match rest.dropWhile isSchemeChar with
      | ':' :: _ => true
      | _ => false

/-- `new URL(rel, base)` (for the shapes this client passes: an
absolute URL, or a path-absolute URL resolved against the base). -/
def resolveUrl (rel base : String) : String :=
  if hasScheme rel then rel else base ++ rel

/-- The query string of a URL: the characters after the first `?` and
before any fragment. -/
def urlQuery (href : String) : List Char :=
  match (href.data.takeWhile (fun c => c ≠ '#')).dropWhile
      (fun c => c ≠ '?') with
  | [] => []
  | _ :: rest => rest

/-- One `name=value` piece of a query string, split at the first `=`
(value empty when there is no `=`), name and value form-decoded. -/
def parsePair (piece : List Char) : String × String :=
  (formDecode ⟨piece.takeWhile (fun c => c ≠ '=')⟩,
   formDecode ⟨(piece.dropWhile (fun c => c ≠ '=')).drop 1⟩)

/-- `url.searchParams.get(k)`: split the query on `&`, skip empty
pieces, parse each piece, and return the value of the first pair whose
name is `k` (null when there is none). -/
def spGet (q : List Char) (k : String) : Option String :=
  ((((jsSplit '&' q).filter (fun piece => !piece.isEmpty)).map parsePair).find?
    (fun p => p.1 == k)).map (fun p => p.2)

/-- The raw object `{state, code, scope}` built by `getToken` from
`url.searchParams.get` results (each possibly null). -/
structure RawParams where
  state : Option String
  code : Option String
  scope : Option String

/-- Modelled from the spec: `assertIsParamObj` (./helpers, not under
src/) asserts the record is a well-formed ParamObject — all three
fields present as strings and the code non-empty — and fails otherwise,
before any network attempt. -/
def assertIsParamObj (p : RawParams) : Except String ParamObject :=
  match p.state, p.code, p.scope with
  | some st, some c, some sc =>
    if c = "" then .error "Invalid param object" else .ok ⟨c, st, sc⟩
  | _, _, _ => .error "Invalid param object"

/-- The state/code/scope extraction step of `Client.getToken`
(src/client.ts): parse the callback URL against the placeholder base
`http://localhost` (PLACEHOLDER_URL) and read the three query
parameters. -/
def extractCallbackParams (req_url : String) :
    Option String × Option String × Option String :=
  let url := resolveUrl req_url "http://localhost"
  let q := urlQuery url
  (spGet q "state", spGet q "code", spGet q "scope")

/-- `Client.getToken` (src/client.ts): parse the callback URL (with the
placeholder base for path-only URLs), build the `{state, code, scope}`
object, assert it is a well-formed ParamObject, then delegate to
`getTokenFromObject`. -/
def getToken (cl : Client) (req_url : String)
    (respond : TokenRequest → TokenResponseData) :
    Except String Token × List TokenRequest :=
  let url := resolveUrl req_url "http://localhost"
  let q := urlQuery url
  match assertIsParamObj ⟨spGet q "state", spGet q "code", spGet q "scope"⟩ with
  | .error e => (.error e, [])
  | .ok paramObject => getTokenFromObject cl paramObject respond

theorem getTokenFromObject_trace_url (cl : Client) (p : ParamObject)
    (respond : TokenRequest → TokenResponseData) :
    ∀ req ∈ (getTokenFromObject cl p respond).2, req.url = cl.config.tokenUri := by
  intro req hreq
  by_cases h : scopesEquivalent cl.config.scopes (stringToScopes p.scope)
  · rw [(getTokenFromObject_scope_gate cl p respond).2 h] at hreq
    simp at hreq
    rw [hreq]
  · rw [(getTokenFromObject_scope_gate cl p respond).1 h] at hreq
    simp at hreq

theorem getToken_trace_url (cl : Client) (req_url : String)
    (respond : TokenRequest → TokenResponseData) :
    ∀ req ∈ (getToken cl req_url respond).2, req.url = cl.config.tokenUri := by
  intro req hreq
  unfold getToken at hreq
  dsimp only at hreq
  split at hreq
  · simp at hreq
  · exact getTokenFromObject_trace_url cl _ respond req hreq

/-- C7: a path-only callback URL and the corresponding absolute
callback URL produce identical results: for every query string Q the
whole exchange flow and the extracted state/code/scope record coincide
for "/callback?Q" and "http://localhost/callback?Q", the extracted
record is a function of Q alone (the placeholder never reaches it), and
every request the flow issues goes to the configured tokenUri, not to
the placeholder host. -/
theorem C7_pathOnlyCallback (cl : Client) (Q : String)
    (respond : TokenRequest → TokenResponseData) :
    getToken cl ("/callback?" ++ Q) respond =
      getToken cl ("http://localhost/callback?" ++ Q) respond ∧
    extractCallbackParams ("/callback?" ++ Q) =
      (spGet (Q.data.takeWhile (fun c => c ≠ '#')) "state",
       spGet (Q.data.takeWhile (fun c => c ≠ '#')) "code",
       spGet (Q.data.takeWhile (fun c => c ≠ '#')) "scope") ∧
    extractCallbackParams ("http://localhost/callback?" ++ Q) =
      (spGet (Q.data.takeWhile (fun c => c ≠ '#')) "state",
       spGet (Q.data.takeWhile (fun c => c ≠ '#')) "code",
       spGet (Q.data.takeWhile (fun c => c ≠ '#')) "scope") ∧
    (∀ req ∈ (getToken cl ("/callback?" ++ Q) respond).2,
      req.url = cl.config.tokenUri) :=
  ⟨rfl, rfl, rfl, getToken_trace_url cl ("/callback?" ++ Q) respond⟩
